import Mathlib

/-!
Verification of the Yamazumi simulator (`yamazumi_simulator.py`, with the
near-duplicate variant `run_yamazumi_example.py`).

The development shallowly embeds the loader `ler_dados_yamazumi` and the
computational part of `gerar_grafico_yamazumi` (per-station aggregation,
takt-time resolution, bottleneck selection, VA percentage).  Floating-point
durations are modelled as rationals (`ℚ`); all claims concern exact
arithmetic identities that hold in both representations.  Python string
methods (`lower`, `strip`, `startswith`, substring membership, `upper`)
are modelled by structurally recursive ASCII character-level functions so
that every definition evaluates inside the kernel.
-/

namespace Yamazumi

/-! ### Python string primitives (ASCII) -/

/-- ASCII lower-casing of one character, as Python `str.lower` acts on the
ASCII range. -/
def lowerChar (c : Char) : Char :=
  if 65 ≤ c.toNat ∧ c.toNat ≤ 90 then Char.ofNat (c.toNat + 32) else c

/-- ASCII upper-casing of one character, as Python `str.upper` acts on the
ASCII range. -/
def upperChar (c : Char) : Char :=
  if 97 ≤ c.toNat ∧ c.toNat ≤ 122 then Char.ofNat (c.toNat - 32) else c

/-- Python `str.lower` (ASCII fragment). -/
def pyLower (s : String) : String := ⟨s.data.map lowerChar⟩

/-- Python `str.upper` (ASCII fragment). -/
def pyUpper (s : String) : String := ⟨s.data.map upperChar⟩

/-- Whitespace characters removed by Python `str.strip`. -/
def isSpaceChar (c : Char) : Bool := c.toNat ∈ [9, 10, 11, 12, 13, 32]

/-- Python `str.strip`: remove leading and trailing whitespace. -/
def pyStrip (s : String) : String :=
  ⟨((s.data.dropWhile isSpaceChar).reverse.dropWhile isSpaceChar).reverse⟩

/-- Boolean list-prefix test on character lists. -/
def prefixB : List Char → List Char → Bool
  | [], _ => true
  | _ :: _, [] => false
  | p :: ps, c :: cs => p == c && prefixB ps cs

/-- Python `str.startswith pat`. -/
def startsWithB (s pat : String) : Bool := prefixB pat.data s.data

/-- Boolean list-infix test on character lists. -/
def infixB (pat : List Char) : List Char → Bool
  | [] => prefixB pat []
  | c :: cs => prefixB pat (c :: cs) || infixB pat cs

/-- Python substring membership `pat in s`. -/
def containsSub (s pat : String) : Bool := infixB pat.data s.data

/-! ### Data model

A spreadsheet cell is either a numeric value (modelled as `ℚ`) or a piece
of text that does not parse as a number.  A table (pandas `DataFrame` as
produced by `read_excel`) is its list of columns, each carrying its header
text and its cells, in sheet order. -/

/-- One spreadsheet cell: a numeric value, or text that is not a number. -/
inductive Cell where
  | num (q : ℚ)
  | str (s : String)
deriving DecidableEq

/-- `astype(float)` on one cell: numeric cells convert, non-numeric text
raises (modelled by `none`). -/
def Cell.toFloat : Cell → Option ℚ
  | .num q => some q
  | .str _ => none

/-- `astype(str)` on one cell. -/
def Cell.toStr : Cell → String
  | .num q => toString q
  | .str s => s

/-- One table column: its header text followed by its cells. -/
structure Column where
  header : String
  cells : List Cell
deriving DecidableEq

/-- A loaded spreadsheet: the list of its columns in sheet order. -/
abbrev Table := List Column

/-- Errors raised by the scripts.  `schemaError` models the
`ValueError("A planilha deve ter as colunas 'Estacao', 'Tempo' e 'Categoria'")`,
`validationError` the remaining `ValueError`s (bad unit, failed float
coercion).  `emptyInputError` is the error class named by the
specification's taxonomy; the source never raises it, and the constructor
exists so that theorems can state that fact. -/
inductive YamaError where
  | schemaError
  | validationError (msg : String)
  | emptyInputError
deriving DecidableEq

instance {ε α : Type} [DecidableEq ε] [DecidableEq α] : DecidableEq (Except ε α) := fun x y =>
  match x, y with
  | .ok a, .ok b =>
    if h : a = b then isTrue (by rw [h]) else isFalse (fun hc => h (Except.ok.inj hc))
  | .error e, .error f =>
    if h : e = f then isTrue (by rw [h]) else isFalse (fun hc => h (Except.error.inj hc))
  | .ok _, .error _ => isFalse (fun hc => Except.noConfusion hc)
  | .error _, .ok _ => isFalse (fun hc => Except.noConfusion hc)

/-- One row of the normalized frame `df_res` returned by
`ler_dados_yamazumi`: original station cell, duration in seconds
(column `Tempo_s`), upper-cased category text. -/
structure NormalizedRecord where
  station : Cell
  duration_seconds : ℚ
  category : String
deriving DecidableEq

/-! ### Loader (`ler_dados_yamazumi`) -/

/-- Header normalization `c.lower().strip()` used by the column checks. -/
def normHeader (h : String) : String := pyStrip (pyLower h)

/-- `[c for c in df.columns if c.lower().strip() == name][0]`: the first
column whose normalized header equals `name`. -/
def resolveCol (df : Table) (name : String) : Option Column :=
  df.find? (fun c => normHeader c.header == name)

/-- `df[col_time].astype(float)`: all-or-nothing float coercion of a
column's cells. -/
def toFloats : List Cell → Option (List ℚ)
  | [] => some []
  | c :: cs =>
    match c.toFloat, toFloats cs with
    | some q, some qs => some (q :: qs)
    | _, _ => none

/-- `"(min" in col_time.lower()`: the minutes marker in the time-column
header. -/
def hasMinMarker (h : String) : Bool := containsSub (pyLower h) "(min"

/-- Unit resolution of `ler_dados_yamazumi`: decides whether raw times are
multiplied by 60.  Mirrors the source: `if unidade:` (so `None` and the
empty string both fall through to header inference), then
`unidade.lower().startswith("min")`, then `startswith("seg")`, else
`raise ValueError("Unidade deve ser 'minutos' ou 'segundos'")`. -/
def unitIsMinutes (unidade : Option String) (timeHeader : String) : Except YamaError Bool :=
  match unidade with
  | none => .ok (hasMinMarker timeHeader)
  | some u =>
    if u = "" then .ok (hasMinMarker timeHeader)
    else if startsWithB (pyLower u) "min" then .ok true
    else if startsWithB (pyLower u) "seg" then .ok false
    else .error (.validationError "Unidade deve ser minutos ou segundos")

/-- Row-wise assembly of the result frame
`pd.DataFrame({"Estacao": ..., "Tempo_s": ..., "Categoria": ...})`. -/
def zip3Records : List Cell → List ℚ → List String → List NormalizedRecord
  | e :: es, q :: qs, c :: cs => ⟨e, q, c⟩ :: zip3Records es qs cs
  | _, _, _ => []

/-- Body of `ler_dados_yamazumi` once the three columns are resolved:
float coercion of the time column, unit resolution, category
upper-casing, and assembly of the normalized frame. -/
def ler_dados_body (colEst colTime colCat : Column) (unidade : Option String) :
    Except YamaError (List NormalizedRecord) :=
  match toFloats colTime.cells with
  | none => .error (.validationError "could not convert string to float")
  | some tempos =>
    match unitIsMinutes unidade colTime.header with
    | .error e => .error e
    | .ok isMin =>
      .ok (zip3Records colEst.cells
        (if isMin then tempos.map (fun q => q * 60) else tempos)
        (colCat.cells.map (fun c => pyUpper c.toStr)))

/-- `ler_dados_yamazumi` after `read_excel`, as a function of the three
column lookups.  The match on the three `Option Column`s models the
`required_cols.issubset(cols_lower)` check (the subset test succeeds
exactly when each of the three lookups finds a column). -/
def ler_dados_core (est? time? cat? : Option Column) (unidade : Option String) :
    Except YamaError (List NormalizedRecord) :=
  match est?, time?, cat? with
  | some colEst, some colTime, some colCat => ler_dados_body colEst colTime colCat unidade
  | _, _, _ => .error .schemaError

/-- `ler_dados_yamazumi(arquivo, unidade)` after `read_excel`: schema check
against the required names `estacao`, `tempo`, `categoria`, column
resolution, and normalization. -/
def ler_dados_yamazumi (df : Table) (unidade : Option String) :
    Except YamaError (List NormalizedRecord) :=
  ler_dados_core (resolveCol df "estacao") (resolveCol df "tempo")
    (resolveCol df "categoria") unidade

/-! ### Aggregation (`gerar_grafico_yamazumi`, computational part)

`df.pivot_table(index="Estacao", columns="Categoria", values="Tempo_s",
aggfunc="sum", fill_value=0.0).reindex(columns=["VA","NVA","MUDA"],
fill_value=0.0)`: group the normalized rows by station, sum the duration
per category, keep exactly the three canonical category columns (any
other category column is dropped by the `reindex`), and — as pandas
group-by does by default — emit the distinct stations in ascending sorted
order of the grouping key. -/

/-- One row of the re-indexed pivot: a station and its summed seconds in
each of the three canonical categories. -/
structure StationAggregate where
  station : Cell
  va : ℚ
  nva : ℚ
  muda : ℚ
deriving DecidableEq

/-- Row sum `pivot.sum(axis=1)` of the re-indexed pivot. -/
def StationAggregate.total_seconds (a : StationAggregate) : ℚ := a.va + a.nva + a.muda

/-- Summed `Tempo_s` of the rows with the given station and category. -/
def sumFor (rs : List NormalizedRecord) (st : Cell) (cat : String) : ℚ :=
  ((rs.filter (fun r => r.station == st && r.category == cat)).map
    (fun r => r.duration_seconds)).sum

/-- The order pandas sorts grouping keys by: numeric cells by value, text
cells lexicographically.  (A mixed numeric/text key column is ordered with
numbers first; pandas would raise on such a comparison, and no claim
depends on the mixed case.) -/
def cellLe : Cell → Cell → Prop
  | .num a, .num b => a ≤ b
  | .num _, .str _ => True
  | .str _, .num _ => False
  | .str a, .str b => a ≤ b

instance : DecidableRel cellLe := fun a b => by
  cases a <;> cases b <;> simp only [cellLe] <;> infer_instance

instance : IsTrans Cell cellLe where
  trans a b c hab hbc := by
    cases a <;> cases b <;> cases c <;> simp_all only [cellLe] <;> exact le_trans hab hbc

instance : IsTotal Cell cellLe where
  total a b := by
    cases a <;> cases b <;> simp only [cellLe]
    · exact le_total _ _
    · exact Or.inl trivial
    · exact Or.inr trivial
    · exact le_total _ _

/-- Ascending sort of the grouping keys. -/
def sortStations (l : List Cell) : List Cell := l.insertionSort cellLe

/-- The index of the pivot: the distinct station values, sorted
ascending. -/
def stationKeys (rs : List NormalizedRecord) : List Cell :=
  sortStations ((rs.map (fun r => r.station)).dedup)

/-- The re-indexed pivot as a list of rows: one `StationAggregate` per
distinct station, in the pivot's (sorted) index order. -/
def aggregate (rs : List NormalizedRecord) : List StationAggregate :=
  (stationKeys rs).map (fun st => ⟨st, sumFor rs st "VA", sumFor rs st "NVA", sumFor rs st "MUDA"⟩)

/-- First-occurrence order of distinct station values, as the claims'
"first-seen order" reads; used to compare against the order the code
actually produces. -/
def dedupKeepFirstAux (seen : List Cell) : List Cell → List Cell
  | [] => []
  | x :: xs =>
    if seen.contains x then dedupKeepFirstAux seen xs
    else x :: dedupKeepFirstAux (x :: seen) xs

/-- The distinct stations of a record list in first-seen order. -/
def firstSeenStations (rs : List NormalizedRecord) : List Cell :=
  dedupKeepFirstAux [] (rs.map (fun r => r.station))

/-! ### Takt resolution, bottleneck, VA share -/

/-- pandas `Series.mean()`: `none` models the `NaN` an empty series
yields. -/
def seriesMean (xs : List ℚ) : Option ℚ :=
  if xs = [] then none else some (xs.sum / xs.length)

/-- The takt-resolution step `if takt_s is None: takt_s =
total_por_estacao.mean()`.  The result is the resolved takt (`none` for
pandas `NaN`).  The `Except` layer records the raising behaviour of the
step: the source contains no raise here, so the result is always `.ok` —
in particular the step never raises on zero stations, where the mean is
`NaN`. -/
def resolve_takt (aggs : List StationAggregate) (given : Option ℚ) :
    Except YamaError (Option ℚ) :=
  .ok (match given with
       | some t => some t
       | none => seriesMean (aggs.map (fun a => a.total_seconds)))

/-- `total_por_estacao.idxmax()` kernel: fold keeping the current best,
replaced only on strictly larger totals, so the first maximum in
iteration order wins. -/
def argmaxGo (b : StationAggregate) : List StationAggregate → StationAggregate
  | [] => b
  | a :: rest => argmaxGo (if b.total_seconds < a.total_seconds then a else b) rest

/-- `total_por_estacao.idxmax()`: the first row with maximal
`total_seconds`, `none` on an empty frame (where pandas raises). -/
def argmaxTotal : List StationAggregate → Option StationAggregate
  | [] => none
  | a :: rest => some (argmaxGo a rest)

/-- The VA proportion `va / total_por_estacao.replace(0, 1)` printed in
the summary (the source's `va_ratio` series): the zero total is replaced
by 1 before dividing. -/
def va_share (a : StationAggregate) : ℚ :=
  a.va / (if a.total_seconds = 0 then 1 else a.total_seconds)

/-! ### The schema test -/

/-- The schema test
`required_cols.issubset({c.lower().strip() for c in df.columns})` of
`ler_dados_yamazumi`: every required Portuguese name is matched by some
column header after lower-casing and trimming. -/
def requiredOk (df : Table) : Bool :=
  ["estacao", "tempo", "categoria"].all (fun n => df.any (fun c => normHeader c.header == n))

/-- Boolean membership with the `x == y` orientation used by `sumFor`. -/
def memB {α : Type} [BEq α] (x : α) (l : List α) : Bool := l.any (fun y => x == y)

/-! ### Demonstration inputs -/

/-- A well-formed input table with the Portuguese headers the source
requires. -/
def ptTable : Table :=
  [⟨"Estacao", [Cell.str "P1", Cell.str "P1"]⟩,
   ⟨"Tempo", [Cell.num 5, Cell.num 7]⟩,
   ⟨"Categoria", [Cell.str "va", Cell.str "NVA"]⟩]

/-- The same data under the English headers the specification names. -/
def enTable : Table :=
  [⟨"Station", [Cell.str "P1"]⟩,
   ⟨"Time", [Cell.num 5]⟩,
   ⟨"Category", [Cell.str "VA"]⟩]

/-- A table whose time-column header carries the `(min)` marker. -/
def minTable : Table :=
  [⟨"Estacao", [Cell.str "P1"]⟩,
   ⟨"Tempo (min)", [Cell.num 2]⟩,
   ⟨"Categoria", [Cell.str "VA"]⟩]

/-- A table whose time-column header carries no unit marker. -/
def secTable : Table :=
  [⟨"Estacao", [Cell.str "P1"]⟩,
   ⟨"Tempo", [Cell.num 120]⟩,
   ⟨"Categoria", [Cell.str "VA"]⟩]

/-- `ptTable` with two additional unrelated columns, one of them first. -/
def ptTableExtra : Table :=
  [⟨"Obs", [Cell.str "x", Cell.str "y"]⟩,
   ⟨"Estacao", [Cell.str "P1", Cell.str "P1"]⟩,
   ⟨"Tempo", [Cell.num 5, Cell.num 7]⟩,
   ⟨"Categoria", [Cell.str "va", Cell.str "NVA"]⟩,
   ⟨"Nota", [Cell.num 9, Cell.num 9]⟩]

/-- A table carrying a negative raw duration. -/
def negTable : Table :=
  [⟨"Estacao", [Cell.str "P1"]⟩,
   ⟨"Tempo", [Cell.num (-5)]⟩,
   ⟨"Categoria", [Cell.str "VA"]⟩]

/-- A table whose durations sum to zero at one station without all being
zero. -/
def negMixTable : Table :=
  [⟨"Estacao", [Cell.str "P1", Cell.str "P1"]⟩,
   ⟨"Tempo", [Cell.num 5, Cell.num (-5)]⟩,
   ⟨"Categoria", [Cell.str "VA", Cell.str "NVA"]⟩]

/-- One record in a category outside the three canonical ones. -/
def rsOther : List NormalizedRecord := [⟨Cell.num 1, 5, "OTHER"⟩]

/-- Records whose stations first appear in the order 2, 1. -/
def rsBA : List NormalizedRecord := [⟨Cell.num 2, 1, "VA"⟩, ⟨Cell.num 1, 1, "VA"⟩]

/-- Station A of the claims' bottleneck example: total 150 s. -/
def aggA : StationAggregate := ⟨Cell.str "A", 150, 0, 0⟩

/-- Station B of the claims' bottleneck example: total 300 s. -/
def aggB : StationAggregate := ⟨Cell.str "B", 300, 0, 0⟩

/-- Station C of the claims' bottleneck example: total 300 s, tying B. -/
def aggC : StationAggregate := ⟨Cell.str "C", 300, 0, 0⟩

/-! ### General lemmas -/

theorem resolveCol_eq_none (df : Table) (n : String) :
    resolveCol df n = none ↔ df.any (fun c => normHeader c.header == n) = false := by
  induction df with
  | nil => simp [resolveCol]
  | cons c cs ih =>
    simp only [resolveCol, List.any_cons] at *
    cases h : normHeader c.header == n <;>
      simp [List.find?_cons, h, ih]

theorem unitIsMinutes_no_schema (u : Option String) (h : String) :
    unitIsMinutes u h ≠ .error .schemaError := by
  unfold unitIsMinutes
  rcases u with _ | u
  · simp
  · by_cases h1 : u = "" <;> by_cases h2 : startsWithB (pyLower u) "min" = true <;>
      by_cases h3 : startsWithB (pyLower u) "seg" = true <;>
      simp [h1, h2, h3]

theorem zip3Records_map_duration (es : List Cell) (qs : List ℚ) (cs : List String)
    (h1 : es.length = qs.length) (h2 : cs.length = qs.length) :
    (zip3Records es qs cs).map (fun r => r.duration_seconds) = qs := by
  induction qs generalizing es cs with
  | nil => cases es <;> cases cs <;> simp_all [zip3Records]
  | cons q qs ih =>
    cases es with
    | nil => simp at h1
    | cons e es =>
      cases cs with
      | nil => simp at h2
      | cons c cs =>
        simp only [zip3Records, List.map_cons, List.length_cons] at *
        rw [ih es cs (by omega) (by omega)]

theorem zip3Records_duration_mem (es : List Cell) (qs : List ℚ) (cs : List String) :
    ∀ r ∈ zip3Records es qs cs, r.duration_seconds ∈ qs := by
  induction es generalizing qs cs with
  | nil => simp [zip3Records]
  | cons e es ih =>
    cases qs with
    | nil => simp [zip3Records]
    | cons q qs =>
      cases cs with
      | nil => simp [zip3Records]
      | cons c cs =>
        intro r hr
        simp only [zip3Records] at hr
        rcases List.mem_cons.mp hr with rfl | hr
        · exact List.mem_cons_self _ _
        · exact List.mem_cons_of_mem _ (ih qs cs r hr)

theorem toFloats_mem (cells : List Cell) (qs : List ℚ) (h : toFloats cells = some qs) :
    ∀ q ∈ qs, Cell.num q ∈ cells := by
  induction cells generalizing qs with
  | nil =>
    simp only [toFloats, Option.some.injEq] at h
    subst h; simp
  | cons c cs ih =>
    cases c with
    | str s => simp [toFloats, Cell.toFloat] at h
    | num q0 =>
      simp only [toFloats, Cell.toFloat] at h
      cases hrest : toFloats cs with
      | none => rw [hrest] at h; cases h
      | some qs0 =>
        rw [hrest] at h
        simp only [Option.some.injEq] at h
        subst h
        intro q hq
        rcases List.mem_cons.mp hq with rfl | hq
        · exact List.mem_cons_self _ _
        · exact List.mem_cons_of_mem _ (ih qs0 hrest q hq)

theorem infixB_head_mem {p : Char} {ps l : List Char} (h : infixB (p :: ps) l = true) :
    p ∈ l := by
  induction l with
  | nil => simp [infixB, prefixB] at h
  | cons c cs ih =>
    simp only [infixB, Bool.or_eq_true] at h
    rcases h with h1 | h2
    · simp only [prefixB, Bool.and_eq_true, beq_iff_eq] at h1
      exact h1.1 ▸ List.mem_cons_self _ _
    · exact List.mem_cons_of_mem _ (ih h2)

theorem mem_dropWhileSp {c : Char} {l : List Char} (hc : isSpaceChar c = false)
    (h : c ∈ l) : c ∈ l.dropWhile isSpaceChar := by
  induction l with
  | nil => cases h
  | cons x xs ih =>
    by_cases hx : isSpaceChar x = true
    · rcases List.mem_cons.mp h with rfl | h'
      · rw [hx] at hc; cases hc
      · simpa [List.dropWhile_cons, hx] using ih h'
    · simpa [List.dropWhile_cons, hx] using h

theorem mem_pyStrip {c : Char} {s : String} (hc : isSpaceChar c = false)
    (h : c ∈ s.data) : c ∈ (pyStrip s).data := by
  unfold pyStrip
  exact List.mem_reverse.mpr (mem_dropWhileSp hc (List.mem_reverse.mpr (mem_dropWhileSp hc h)))

/-- A column the loader resolves as the time column has a header equal to
`tempo` after lower-casing and trimming, and trimming removes only
whitespace — so the resolved header can never contain the `(min` marker:
the minutes-inference branch of the source is unreachable. -/
theorem resolved_tempo_no_marker (df : Table) (tcol : Column)
    (hT : resolveCol df "tempo" = some tcol) : hasMinMarker tcol.header = false := by
  have hT' : List.find? (fun c => normHeader c.header == "tempo") df = some tcol := hT
  have hpred := List.find?_some hT'
  have hnorm : normHeader tcol.header = "tempo" := by simpa using hpred
  by_contra hmark
  rw [Bool.not_eq_false] at hmark
  have hpar : '(' ∈ (pyLower tcol.header).data :=
    @infixB_head_mem '(' ['m', 'i', 'n'] (pyLower tcol.header).data hmark
  have hsur : '(' ∈ (normHeader tcol.header).data := mem_pyStrip (by decide) hpar
  rw [hnorm] at hsur
  simp at hsur

/-! ### Claim C1 -/

/-- Claim C1, counterexample.  In `enTable` all three of the claim's
required names `station`, `time`, `category` are matched (case-insensitively,
trimmed) by a header, yet the loader fails with the schema error: the source
only accepts the Portuguese names `estacao`, `tempo`, `categoria`. -/
theorem C1_counterexample :
    (["station", "time", "category"].all
        (fun n => enTable.any (fun c => normHeader c.header == n)) = true)
      ∧ ler_dados_yamazumi enTable none = .error .schemaError := by
  decide

/-- Claim C1 (amended): `ler_dados_yamazumi` fails with the schema error
exactly when the required columns — matched case-insensitively after
trimming against the Portuguese names `estacao`, `tempo`, `categoria` —
are not all present; when they are present the loader resolves all three
and never reports the schema error (the English names `station`, `time`,
`category` of the original claim do not satisfy the requirement, see the
counterexample). -/
theorem C1_schema (df : Table) (u : Option String) :
    ler_dados_yamazumi df u = .error .schemaError ↔ requiredOk df = false := by
  unfold ler_dados_yamazumi ler_dados_core requiredOk
  cases hE : resolveCol df "estacao" with
  | none =>
    simp [List.all_cons, (resolveCol_eq_none df "estacao").mp hE]
  | some colE =>
    have hE' : df.any (fun c => normHeader c.header == "estacao") = true := by
      cases h : df.any (fun c => normHeader c.header == "estacao")
      · rw [(resolveCol_eq_none df "estacao").mpr h] at hE; cases hE
      · rfl
    cases hT : resolveCol df "tempo" with
    | none =>
      simp [List.all_cons, hE', (resolveCol_eq_none df "tempo").mp hT]
    | some colT =>
      have hT' : df.any (fun c => normHeader c.header == "tempo") = true := by
        cases h : df.any (fun c => normHeader c.header == "tempo")
        · rw [(resolveCol_eq_none df "tempo").mpr h] at hT; cases hT
        · rfl
      cases hC : resolveCol df "categoria" with
      | none =>
        simp [List.all_cons, hE', hT', (resolveCol_eq_none df "categoria").mp hC]
      | some colC =>
        have hC' : df.any (fun c => normHeader c.header == "categoria") = true := by
          cases h : df.any (fun c => normHeader c.header == "categoria")
          · rw [(resolveCol_eq_none df "categoria").mpr h] at hC; cases hC
          · rfl
        simp only [List.all_cons, List.all_nil, hE', hT', hC', Bool.and_true, Bool.and_self]
        cases hF : toFloats colT.cells with
        | none => simp [ler_dados_body, hF]
        | some tempos =>
          cases hU : unitIsMinutes u colT.header with
          | error e =>
            have : e ≠ .schemaError := by
              intro he
              exact unitIsMinutes_no_schema u colT.header (he ▸ hU)
            simp [ler_dados_body, hF, hU, this]
          | ok isMin => simp [ler_dados_body, hF, hU]

/-! ### Claim C2 -/

/-- Claim C2, counterexample.  The claim's own instance: a table whose
time-column header is `Tempo (min)` with raw value 2.0 should load with
`duration_seconds = 120.0`.  In the source, column resolution demands a
header *equal* to `tempo` after lower-casing and trimming, so
`Tempo (min)` is not resolved as the time column at all and the load fails
with the schema error instead. -/
theorem C2_counterexample :
    hasMinMarker "Tempo (min)" = true
    ∧ ler_dados_yamazumi minTable none = .error .schemaError := by
  decide

/-- Claim C2 (amended): the minutes-inference branch exists in the source
but is unreachable — a resolved time column's header equals `tempo` after
trimming and lower-casing and therefore never contains `(min` — so with no
unit hint every successful load keeps the raw values as seconds
unconverted. -/
theorem C2_unit_inference (df : Table) (ecol tcol ccol : Column) (tempos : List ℚ)
    (recs : List NormalizedRecord)
    (hE : resolveCol df "estacao" = some ecol)
    (hT : resolveCol df "tempo" = some tcol)
    (hC : resolveCol df "categoria" = some ccol)
    (hF : toFloats tcol.cells = some tempos)
    (hlenE : ecol.cells.length = tempos.length)
    (hlenC : ccol.cells.length = tempos.length)
    (hok : ler_dados_yamazumi df none = .ok recs) :
    hasMinMarker tcol.header = false
    ∧ recs.map (fun r => r.duration_seconds) = tempos := by
  have hM : hasMinMarker tcol.header = false := resolved_tempo_no_marker df tcol hT
  refine ⟨hM, ?_⟩
  have hu : unitIsMinutes none tcol.header = .ok false := by
    simp [unitIsMinutes, hM]
  simp only [ler_dados_yamazumi, hE, hT, hC, ler_dados_core, ler_dados_body, hF, hu,
    Bool.false_eq_true, if_false, Except.ok.injEq] at hok
  subst hok
  exact zip3Records_map_duration _ _ _ hlenE (by simpa using hlenC)

/-- Claim C2, witness: the unmarked header `Tempo` keeps the raw value 120
as 120 seconds. -/
theorem C2_unit_inference_witness :
    hasMinMarker "Tempo" = false
    ∧ ([⟨Cell.str "P1", 120, "VA"⟩] : List NormalizedRecord).map
        (fun r => r.duration_seconds) = [(120:ℚ)] :=
  C2_unit_inference secTable ⟨"Estacao", [Cell.str "P1"]⟩ ⟨"Tempo", [Cell.num 120]⟩
    ⟨"Categoria", [Cell.str "VA"]⟩ [120] [⟨Cell.str "P1", 120, "VA"⟩]
    (by decide) (by decide) (by decide) (by decide) (by decide) (by decide) rfl

/-! ### Claim C7 -/

/-- Claim C7, counterexample.  The hint `"seconds"` starts with `sec`, so
per the claim no conversion should be applied and loading should succeed;
the source checks the Portuguese prefix `seg` and raises the unit
validation error instead. -/
theorem C7_counterexample :
    startsWithB (pyLower "seconds") "sec" = true
    ∧ ler_dados_yamazumi ptTable (some "seconds") =
        .error (.validationError "Unidade deve ser minutos ou segundos") := by
  decide

/-- Claim C7 (amended): with a non-empty unit hint, a hint starting
(case-insensitively) with `min` multiplies every raw duration by 60, one
starting with `seg` — not `sec` — applies no conversion, and any other
hint fails with the unit validation error.  (A hint that is the empty
string is falsy in the source and falls back to header inference.) -/
theorem C7_unit_hint (df : Table) (u : String) (ecol tcol ccol : Column) (tempos : List ℚ)
    (hE : resolveCol df "estacao" = some ecol)
    (hT : resolveCol df "tempo" = some tcol)
    (hC : resolveCol df "categoria" = some ccol)
    (hF : toFloats tcol.cells = some tempos)
    (hu : u ≠ "") :
    (startsWithB (pyLower u) "min" = true →
      ler_dados_yamazumi df (some u) =
        .ok (zip3Records ecol.cells (tempos.map (fun q => q * 60))
          (ccol.cells.map (fun c => pyUpper c.toStr))))
    ∧ (startsWithB (pyLower u) "min" = false → startsWithB (pyLower u) "seg" = true →
      ler_dados_yamazumi df (some u) =
        .ok (zip3Records ecol.cells tempos (ccol.cells.map (fun c => pyUpper c.toStr))))
    ∧ (startsWithB (pyLower u) "min" = false → startsWithB (pyLower u) "seg" = false →
      ler_dados_yamazumi df (some u) =
        .error (.validationError "Unidade deve ser minutos ou segundos")) := by
  refine ⟨fun hmin => ?_, fun hmin hseg => ?_, fun hmin hseg => ?_⟩ <;>
    simp only [ler_dados_yamazumi, hE, hT, hC, ler_dados_core, ler_dados_body, hF]
  · simp [unitIsMinutes, hu, hmin]
  · simp [unitIsMinutes, hu, hmin, hseg]
  · simp [unitIsMinutes, hu, hmin, hseg]

/-- Claim C7, witness: on `ptTable` (raw times 5 and 7) the hint
`"Minutos"` scales to 5·60 and 7·60 seconds, the hint `"segundos"` keeps
5 and 7, and the hint `"hours"` fails with the unit validation error. -/
theorem C7_unit_hint_witness :
    (ler_dados_yamazumi ptTable (some "Minutos") =
      .ok (zip3Records [Cell.str "P1", Cell.str "P1"] ([(5:ℚ), 7].map (fun q => q * 60))
        ([Cell.str "va", Cell.str "NVA"].map (fun c => pyUpper c.toStr))))
    ∧ (ler_dados_yamazumi ptTable (some "segundos") =
      .ok (zip3Records [Cell.str "P1", Cell.str "P1"] [(5:ℚ), 7]
        ([Cell.str "va", Cell.str "NVA"].map (fun c => pyUpper c.toStr))))
    ∧ (ler_dados_yamazumi ptTable (some "hours") =
        .error (.validationError "Unidade deve ser minutos ou segundos")) :=
  ⟨(C7_unit_hint ptTable "Minutos" ⟨"Estacao", [Cell.str "P1", Cell.str "P1"]⟩
      ⟨"Tempo", [Cell.num 5, Cell.num 7]⟩ ⟨"Categoria", [Cell.str "va", Cell.str "NVA"]⟩
      [5, 7] (by decide) (by decide) (by decide) (by decide) (by decide)).1 (by decide),
   (C7_unit_hint ptTable "segundos" ⟨"Estacao", [Cell.str "P1", Cell.str "P1"]⟩
      ⟨"Tempo", [Cell.num 5, Cell.num 7]⟩ ⟨"Categoria", [Cell.str "va", Cell.str "NVA"]⟩
      [5, 7] (by decide) (by decide) (by decide) (by decide) (by decide)).2.1
      (by decide) (by decide),
   (C7_unit_hint ptTable "hours" ⟨"Estacao", [Cell.str "P1", Cell.str "P1"]⟩
      ⟨"Tempo", [Cell.num 5, Cell.num 7]⟩ ⟨"Categoria", [Cell.str "va", Cell.str "NVA"]⟩
      [5, 7] (by decide) (by decide) (by decide) (by decide) (by decide)).2.2
      (by decide) (by decide)⟩

/-! ### Claim C9 -/

/-- Claim C9, counterexample.  The loader accepts the raw duration −5 with
no sign validation and returns a record with negative
`duration_seconds`. -/
theorem C9_counterexample :
    ler_dados_yamazumi negTable none = .ok [⟨Cell.str "P1", -5, "VA"⟩]
    ∧ ((-5 : ℚ) < 0) := by
  constructor
  · rfl
  · decide

/-- Claim C9 (amended): the loader performs no sign validation, so a
negative raw duration flows through (see the counterexample); records of a
successful load are non-negative exactly under the precondition that every
numeric cell of the resolved time column is non-negative (the scale factor
is 60 or 1, both positive). -/
theorem C9_nonneg (df : Table) (u : Option String) (tcol : Column)
    (recs : List NormalizedRecord)
    (hT : resolveCol df "tempo" = some tcol)
    (hcells : ∀ q : ℚ, Cell.num q ∈ tcol.cells → 0 ≤ q)
    (hok : ler_dados_yamazumi df u = .ok recs) :
    ∀ r ∈ recs, 0 ≤ r.duration_seconds := by
  cases hE : resolveCol df "estacao" with
  | none =>
    simp only [ler_dados_yamazumi, hE, ler_dados_core] at hok
    exact Except.noConfusion hok
  | some ecol =>
  cases hC : resolveCol df "categoria" with
  | none =>
    simp only [ler_dados_yamazumi, hE, hT, hC, ler_dados_core] at hok
    exact Except.noConfusion hok
  | some ccol =>
  cases hF : toFloats tcol.cells with
  | none =>
    simp only [ler_dados_yamazumi, hE, hT, hC, ler_dados_core, ler_dados_body, hF] at hok
    exact Except.noConfusion hok
  | some tempos =>
  cases hU : unitIsMinutes u tcol.header with
  | error e =>
    simp only [ler_dados_yamazumi, hE, hT, hC, ler_dados_core, ler_dados_body, hF, hU] at hok
    exact Except.noConfusion hok
  | ok isMin =>
  simp only [ler_dados_yamazumi, hE, hT, hC, ler_dados_core, ler_dados_body, hF, hU,
    Except.ok.injEq] at hok
  subst hok
  intro r hr
  have hmem := zip3Records_duration_mem _ _ _ r hr
  have hnn : ∀ q ∈ tempos, (0:ℚ) ≤ q := fun q hq => hcells q (toFloats_mem _ _ hF q hq)
  cases isMin with
  | false =>
    simp only [Bool.false_eq_true, if_false] at hmem
    exact hnn _ hmem
  | true =>
    simp only [if_true] at hmem
    rcases List.mem_map.mp hmem with ⟨q, hq, hEq⟩
    rw [← hEq]
    have := hnn q hq
    positivity

/-- Claim C9, witness: on `ptTable`, whose raw times 5 and 7 are
non-negative, the first returned record's duration is non-negative. -/
theorem C9_nonneg_witness :
    (0:ℚ) ≤ (⟨Cell.str "P1", (5:ℚ), "VA"⟩ : NormalizedRecord).duration_seconds :=
  C9_nonneg ptTable none ⟨"Tempo", [Cell.num 5, Cell.num 7]⟩
    [⟨Cell.str "P1", 5, "VA"⟩, ⟨Cell.str "P1", 7, "NVA"⟩]
    (by decide)
    (fun q hq => by
      have : Cell.num q = Cell.num 5 ∨ Cell.num q = Cell.num 7 := by simpa using hq
      rcases this with h | h <;> rw [Cell.num.injEq] at h <;> rw [h] <;> norm_num)
    rfl
    ⟨Cell.str "P1", 5, "VA"⟩ (by decide)

/-! ### Claim C10 -/

/-- Claim C10: noninterference of unrelated columns — two tables that
resolve to the same present station, time and category columns (same
header text and same cells) load to the same result under the same unit
hint, whatever other columns either table carries. -/
theorem C10_noninterference (df1 df2 : Table) (u : Option String)
    (hE : resolveCol df1 "estacao" = resolveCol df2 "estacao")
    (hT : resolveCol df1 "tempo" = resolveCol df2 "tempo")
    (hC : resolveCol df1 "categoria" = resolveCol df2 "categoria")
    (_hpres : (resolveCol df1 "estacao").isSome ∧ (resolveCol df1 "tempo").isSome
      ∧ (resolveCol df1 "categoria").isSome) :
    ler_dados_yamazumi df1 u = ler_dados_yamazumi df2 u := by
  unfold ler_dados_yamazumi
  rw [hE, hT, hC]

/-- Claim C10, witness: `ptTableExtra` adds an unrelated leading column
`Obs` and trailing column `Nota` to `ptTable`; both tables load
identically. -/
theorem C10_noninterference_witness :
    ler_dados_yamazumi ptTable none = ler_dados_yamazumi ptTableExtra none :=
  C10_noninterference ptTable ptTableExtra none (by decide) (by decide) (by decide)
    ⟨by decide, by decide, by decide⟩

/-! ### Aggregation lemmas -/

theorem memB_cons {α : Type} [BEq α] (x y : α) (l : List α) :
    memB x (y :: l) = ((x == y) || memB x l) := by
  simp [memB, List.any_cons]

theorem memB_eq_true_iff {α : Type} [BEq α] [LawfulBEq α] (x : α) (l : List α) :
    memB x l = true ↔ x ∈ l := by
  induction l with
  | nil => simp [memB]
  | cons y ys ih => simp [memB, List.any_cons] at *

theorem sumMapAdd {α : Type} (l : List α) (f g : α → ℚ) :
    (l.map (fun x => f x + g x)).sum = (l.map f).sum + (l.map g).sum := by
  induction l with
  | nil => simp
  | cons x xs ih =>
    simp only [List.map_cons, List.sum_cons, ih]
    ring

theorem sumMapAdd3 {α : Type} (l : List α) (f g h : α → ℚ) :
    (l.map (fun x => f x + g x + h x)).sum =
      (l.map f).sum + (l.map g).sum + (l.map h).sum := by
  induction l with
  | nil => simp
  | cons x xs ih =>
    simp only [List.map_cons, List.sum_cons, ih]
    ring

theorem sum_filter_disjoint {α : Type} (l : List α) (f : α → ℚ) (p q : α → Bool)
    (hdisj : ∀ a, p a = true → q a = false) :
    ((l.filter (fun a => p a || q a)).map f).sum =
      ((l.filter p).map f).sum + ((l.filter q).map f).sum := by
  induction l with
  | nil => simp
  | cons x xs ih =>
    cases hp : p x with
    | true =>
      have hq : q x = false := hdisj x hp
      simp only [List.filter_cons, hp, hq, Bool.true_or, if_true, Bool.false_eq_true,
        if_false, List.map_cons, List.sum_cons, ih]
      ring
    | false =>
      cases hq : q x with
      | true =>
        simp only [List.filter_cons, hp, hq, Bool.false_or, if_true, Bool.false_eq_true,
          if_false, List.map_cons, List.sum_cons, ih]
        ring
      | false =>
        simp only [List.filter_cons, hp, hq, Bool.or_false, Bool.false_eq_true, if_false, ih]

theorem sum_sumFor_keys (rs : List NormalizedRecord) (c : String) (keys : List Cell)
    (hnd : keys.Nodup) :
    (keys.map (fun st => sumFor rs st c)).sum =
      ((rs.filter (fun r => memB r.station keys && r.category == c)).map
        (fun r => r.duration_seconds)).sum := by
  induction keys with
  | nil => simp [memB]
  | cons st ks ih =>
    have hst : st ∉ ks := (List.nodup_cons.mp hnd).1
    have hnd' : ks.Nodup := (List.nodup_cons.mp hnd).2
    have hpred : ∀ r ∈ rs,
        (memB r.station (st :: ks) && r.category == c) =
          ((r.station == st && r.category == c)
            || (memB r.station ks && r.category == c)) := by
      intro r _
      cases h1 : r.station == st <;> cases h2 : memB r.station ks <;>
        cases h3 : r.category == c <;> simp [memB_cons, h1, h2, h3]
    have hdisj : ∀ r : NormalizedRecord, (r.station == st && r.category == c) = true →
        (memB r.station ks && r.category == c) = false := by
      intro r h
      have h' : (r.station == st) = true ∧ (r.category == c) = true := by
        simpa using h
      have h1 : r.station = st := beq_iff_eq.mp h'.1
      have h2 : memB r.station ks = false := by
        rw [h1]
        cases hm : memB st ks
        · rfl
        · exact absurd ((memB_eq_true_iff st ks).mp hm) hst
      simp [h2]
    rw [List.map_cons, List.sum_cons, ih hnd', List.filter_congr hpred,
      sum_filter_disjoint rs _ _ _ hdisj]
    rfl

theorem mem_stationKeys (rs : List NormalizedRecord) (st : Cell) :
    st ∈ stationKeys rs ↔ ∃ r ∈ rs, r.station = st := by
  simp [stationKeys, sortStations, List.mem_insertionSort, List.mem_dedup, List.mem_map]

theorem nodup_stationKeys (rs : List NormalizedRecord) : (stationKeys rs).Nodup :=
  (List.perm_insertionSort cellLe _).nodup_iff.mpr (List.nodup_dedup _)

theorem sorted_stationKeys (rs : List NormalizedRecord) :
    (stationKeys rs).Sorted cellLe :=
  List.sorted_insertionSort cellLe _

/-! ### Claim C3 -/

/-- Claim C3, counterexample.  One record of 5 seconds in the category
`OTHER`: the `reindex(columns=["VA","NVA","MUDA"])` of the source drops
the `OTHER` pivot column, so the station totals sum to 0 while the input
durations sum to 5. -/
theorem C3_counterexample :
    ((aggregate rsOther).map (fun a => a.total_seconds)).sum = 0
    ∧ (rsOther.map (fun r => r.duration_seconds)).sum = 5
    ∧ ((aggregate rsOther).map (fun a => a.total_seconds)).sum ≠
        (rsOther.map (fun r => r.duration_seconds)).sum := by
  have h1 : ((aggregate rsOther).map (fun a => a.total_seconds)).sum = 0 := by
    simp [aggregate, stationKeys, sortStations, List.insertionSort, List.orderedInsert,
      List.dedup, List.pwFilter, sumFor, rsOther, StationAggregate.total_seconds]
  have h2 : (rsOther.map (fun r => r.duration_seconds)).sum = 5 := by
    simp [rsOther]
  refine ⟨h1, h2, ?_⟩
  rw [h1, h2]
  norm_num

/-- Claim C3 (amended): the totals of the aggregation conserve exactly the
durations of the records whose category lies in {VA, NVA, MUDA}; records
in any other category are dropped from the totals by the re-index of the
pivot (see the counterexample), so the sums agree when every record's
category is canonical but not in general. -/
theorem C3_conservation (rs : List NormalizedRecord) :
    ((aggregate rs).map (fun a => a.total_seconds)).sum =
      ((rs.filter (fun r => (r.category == "VA" || r.category == "NVA")
          || r.category == "MUDA")).map (fun r => r.duration_seconds)).sum := by
  have hnd := nodup_stationKeys rs
  have hkeys : ∀ r ∈ rs, memB r.station (stationKeys rs) = true := by
    intro r hr
    exact (memB_eq_true_iff _ _).mpr ((mem_stationKeys rs r.station).mpr ⟨r, hr, rfl⟩)
  have hmap : (aggregate rs).map (fun a => a.total_seconds) =
      (stationKeys rs).map
        (fun st => sumFor rs st "VA" + sumFor rs st "NVA" + sumFor rs st "MUDA") := by
    rw [aggregate, List.map_map]
    rfl
  have hcat : ∀ c : String,
      ((stationKeys rs).map (fun st => sumFor rs st c)).sum =
        ((rs.filter (fun r => r.category == c)).map (fun r => r.duration_seconds)).sum := by
    intro c
    have hfilter : List.filter (fun r => memB r.station (stationKeys rs) && r.category == c) rs
        = List.filter (fun r => r.category == c) rs :=
      List.filter_congr (fun r hr => by rw [hkeys r hr, Bool.true_and])
    rw [sum_sumFor_keys rs c (stationKeys rs) hnd, hfilter]
  have hd1 : ∀ r : NormalizedRecord, (r.category == "VA") = true →
      (r.category == "NVA") = false := by
    intro r h
    rw [beq_iff_eq.mp h]
    decide
  have hd2 : ∀ r : NormalizedRecord,
      ((r.category == "VA" || r.category == "NVA") = true) →
      (r.category == "MUDA") = false := by
    intro r h
    rcases h' : r.category == "VA" with _ | _
    · rw [h', Bool.false_or] at h
      rw [beq_iff_eq.mp h]
      decide
    · rw [beq_iff_eq.mp h']
      decide
  rw [hmap, sumMapAdd3 (stationKeys rs) (fun st => sumFor rs st "VA")
    (fun st => sumFor rs st "NVA") (fun st => sumFor rs st "MUDA"),
    hcat "VA", hcat "NVA", hcat "MUDA",
    sum_filter_disjoint rs _ _ _ hd2, sum_filter_disjoint rs _ _ _ hd1]

/-! ### Claim C4 -/

/-- Claim C4, counterexample.  With stations first seen in the order 2, 1,
the aggregation emits them sorted as 1, 2 — pandas group keys are sorted,
not kept in first-seen order. -/
theorem C4_counterexample :
    (aggregate rsBA).map (fun a => a.station) = [Cell.num 1, Cell.num 2]
    ∧ firstSeenStations rsBA = [Cell.num 2, Cell.num 1]
    ∧ (aggregate rsBA).map (fun a => a.station) ≠ firstSeenStations rsBA := by
  refine ⟨by decide, by decide, by decide⟩

/-- Claim C4 (amended): the aggregation groups records by exact station
value, but emits the `StationAggregate`s with the distinct stations in
ascending sorted order of the grouping key (the pandas default), not in
first-seen order: the station list equals the sorted key list, is sorted
and duplicate-free, covers exactly the stations occurring in the records,
and each aggregate carries the per-category sums of its own station. -/
theorem C4_order (rs : List NormalizedRecord) :
    (aggregate rs).map (fun a => a.station) = stationKeys rs
    ∧ ((aggregate rs).map (fun a => a.station)).Sorted cellLe
    ∧ ((aggregate rs).map (fun a => a.station)).Nodup
    ∧ (∀ st : Cell, st ∈ (aggregate rs).map (fun a => a.station) ↔ ∃ r ∈ rs, r.station = st)
    ∧ (∀ a ∈ aggregate rs, a.va = sumFor rs a.station "VA"
        ∧ a.nva = sumFor rs a.station "NVA" ∧ a.muda = sumFor rs a.station "MUDA") := by
  have hmap : (aggregate rs).map (fun a => a.station) = stationKeys rs := by
    rw [aggregate, List.map_map]
    exact List.map_id _
  refine ⟨hmap, ?_, ?_, ?_, ?_⟩
  · rw [hmap]; exact sorted_stationKeys rs
  · rw [hmap]; exact nodup_stationKeys rs
  · intro st; rw [hmap]; exact mem_stationKeys rs st
  · intro a ha
    rw [aggregate] at ha
    rcases List.mem_map.mp ha with ⟨st, _, rfl⟩
    exact ⟨rfl, rfl, rfl⟩

/-! ### Claim C5 -/

theorem argmaxGo_keep (b : StationAggregate) (l : List StationAggregate)
    (h : ∀ x ∈ l, x.total_seconds ≤ b.total_seconds) : argmaxGo b l = b := by
  induction l generalizing b with
  | nil => rfl
  | cons x xs ih =>
    have hx : x.total_seconds ≤ b.total_seconds := h x (List.mem_cons_self _ _)
    rw [argmaxGo, if_neg (not_lt.mpr hx)]
    exact ih b (fun y hy => h y (List.mem_cons_of_mem _ hy))

theorem argmaxGo_append (b : StationAggregate) (l₁ l₂ : List StationAggregate) :
    argmaxGo b (l₁ ++ l₂) = argmaxGo (argmaxGo b l₁) l₂ := by
  induction l₁ generalizing b with
  | nil => rfl
  | cons x xs ih => rw [List.cons_append, argmaxGo, argmaxGo, ih]

theorem argmaxGo_mem (b : StationAggregate) (l : List StationAggregate) :
    argmaxGo b l = b ∨ argmaxGo b l ∈ l := by
  induction l generalizing b with
  | nil => exact Or.inl rfl
  | cons x xs ih =>
    rw [argmaxGo]
    by_cases h : b.total_seconds < x.total_seconds
    · rw [if_pos h]
      rcases ih x with h' | h'
      · exact Or.inr (by rw [h']; exact List.mem_cons_self _ _)
      · exact Or.inr (List.mem_cons_of_mem _ h')
    · rw [if_neg h]
      rcases ih b with h' | h'
      · exact Or.inl h'
      · exact Or.inr (List.mem_cons_of_mem _ h')

/-- Claim C5: the bottleneck selection (`idxmax`) returns the row with
maximal `total_seconds`, and on ties the row occurring first in the
iteration order established by the aggregation step wins: whenever the
aggregate list splits as `l₁ ++ a :: l₂` with everything before `a`
strictly below `a`'s total and everything after at most `a`'s total,
`argmaxTotal` returns `a`. -/
theorem C5_bottleneck (l₁ l₂ : List StationAggregate) (a : StationAggregate)
    (h₁ : ∀ b ∈ l₁, b.total_seconds < a.total_seconds)
    (h₂ : ∀ b ∈ l₂, b.total_seconds ≤ a.total_seconds) :
    argmaxTotal (l₁ ++ a :: l₂) = some a := by
  cases l₁ with
  | nil =>
    rw [List.nil_append, argmaxTotal, argmaxGo_keep a l₂ h₂]
  | cons c l₁' =>
    rw [List.cons_append, argmaxTotal]
    rw [show l₁' ++ a :: l₂ = (l₁' ++ [a]) ++ l₂ by simp, argmaxGo_append,
      argmaxGo_append]
    have hc : (argmaxGo c l₁').total_seconds < a.total_seconds := by
      rcases argmaxGo_mem c l₁' with h | h
      · rw [h]; exact h₁ c (List.mem_cons_self _ _)
      · exact h₁ _ (List.mem_cons_of_mem _ h)
    rw [show argmaxGo (argmaxGo c l₁') [a] = a by rw [argmaxGo, if_pos hc]; rfl]
    rw [argmaxGo_keep a l₂ h₂]

/-- Claim C5, witness: stations A = 150, B = 300, C = 300 in that order —
the bottleneck is B, the first row attaining the maximum. -/
theorem C5_bottleneck_witness : argmaxTotal [aggA, aggB, aggC] = some aggB :=
  C5_bottleneck [aggA] [aggC] aggB
    (by
      intro b hb
      have hb' : b = aggA := by simpa using hb
      rw [hb']
      norm_num [aggA, aggB, StationAggregate.total_seconds])
    (by
      intro b hb
      have hb' : b = aggC := by simpa using hb
      rw [hb']
      norm_num [aggB, aggC, StationAggregate.total_seconds])

/-! ### Claim C6 -/

/-- Claim C6, counterexample.  With zero stations and no given takt the
source computes `total_por_estacao.mean()`, which for an empty series is
`NaN` — the step succeeds with a `NaN` takt instead of failing with the
specification's `EmptyInputError`. -/
theorem C6_counterexample :
    resolve_takt [] none = .ok none
    ∧ resolve_takt [] none ≠ .error .emptyInputError := by
  exact ⟨rfl, by decide⟩

/-- Claim C6 (amended): a provided takt is used verbatim, even when ≤ 0;
with no given takt the resolved takt is the arithmetic mean of the station
totals; with zero stations the step does not fail — no `EmptyInputError`
exists in the source — and the mean is pandas `NaN` (modelled `none`). -/
theorem C6_takt (aggs : List StationAggregate) (given : Option ℚ) :
    (∀ t : ℚ, given = some t → resolve_takt aggs given = .ok (some t))
    ∧ (given = none → aggs ≠ [] →
        resolve_takt aggs given =
          .ok (some ((aggs.map (fun a => a.total_seconds)).sum / (aggs.length : ℚ))))
    ∧ (given = none → aggs = [] → resolve_takt aggs given = .ok none) := by
  refine ⟨fun t ht => ?_, fun hg hne => ?_, fun hg he => ?_⟩
  · subst ht; rfl
  · subst hg
    have hxs : aggs.map (fun a => a.total_seconds) ≠ [] := by
      simpa using hne
    simp [resolve_takt, seriesMean, hxs]
  · subst hg; subst he; rfl

/-- Claim C6, witness: the takt −5 is used verbatim although negative,
stations with totals 100, 200, 300 resolve to the mean 200, and zero
stations resolve to `NaN` without error. -/
theorem C6_takt_witness :
    resolve_takt [] (some (-5)) = .ok (some (-5))
    ∧ resolve_takt [⟨Cell.num 1, 100, 0, 0⟩, ⟨Cell.num 2, 200, 0, 0⟩,
        ⟨Cell.num 3, 300, 0, 0⟩] none = .ok (some 200)
    ∧ resolve_takt [] none = .ok none := by
  refine ⟨(C6_takt [] (some (-5))).1 (-5) rfl, ?_, (C6_takt [] none).2.2 rfl rfl⟩
  have h := (C6_takt [⟨Cell.num 1, 100, 0, 0⟩, ⟨Cell.num 2, 200, 0, 0⟩,
    ⟨Cell.num 3, 300, 0, 0⟩] none).2.1 rfl (by decide)
  rw [h]
  norm_num [StationAggregate.total_seconds]

/-! ### Claim C8 -/

/-- Claim C8, counterexample.  Durations 5 (VA) and −5 (NVA) at one
station — accepted by the loader, which validates no signs — give
`total_seconds = 0` but `va_share = 5/1 = 5 ≠ 0`: the source divides by
`total_por_estacao.replace(0, 1)`, which returns the VA sum itself, not 0,
when the total is zero. -/
theorem C8_counterexample :
    ler_dados_yamazumi negMixTable none =
      .ok [⟨Cell.str "P1", 5, "VA"⟩, ⟨Cell.str "P1", -5, "NVA"⟩]
    ∧ aggregate [⟨Cell.str "P1", 5, "VA"⟩, ⟨Cell.str "P1", -5, "NVA"⟩] =
        [⟨Cell.str "P1", 5, -5, 0⟩]
    ∧ StationAggregate.total_seconds ⟨Cell.str "P1", 5, -5, 0⟩ = 0
    ∧ va_share ⟨Cell.str "P1", 5, -5, 0⟩ = 5
    ∧ (5 : ℚ) ≠ 0 := by
  refine ⟨rfl, ?_, ?_, ?_, by norm_num⟩
  · simp [aggregate, stationKeys, sortStations, List.insertionSort, List.orderedInsert,
      List.dedup, List.pwFilter, sumFor]
  · norm_num [StationAggregate.total_seconds]
  · norm_num [va_share, StationAggregate.total_seconds]

/-- Claim C8 (amended): `va_share` equals the VA sum divided by
`total_seconds` when the total is non-zero and equals the VA sum itself
(divided by the replaced 1) when the total is zero — which is 0 whenever
the VA sum is 0, in particular for non-negative durations; no division by
zero occurs, and under `0 ≤ va ≤ total` the share lies in [0, 1]. -/
theorem C8_va_share (a : StationAggregate) :
    (a.total_seconds ≠ 0 → va_share a = a.va / a.total_seconds)
    ∧ (a.total_seconds = 0 → va_share a = a.va)
    ∧ (0 ≤ a.va → a.va ≤ a.total_seconds → 0 ≤ va_share a ∧ va_share a ≤ 1) := by
  by_cases h : a.total_seconds = 0
  · refine ⟨fun hne => absurd h hne, fun _ => ?_, fun h0 h1 => ?_⟩
    · rw [va_share, if_pos h, div_one]
    · have hva : a.va = 0 := le_antisymm (h ▸ h1) h0
      rw [va_share, if_pos h, div_one, hva]
      norm_num
  · refine ⟨fun _ => ?_, fun heq => absurd heq h, fun h0 h1 => ?_⟩
    · rw [va_share, if_neg h]
    · have hpos : 0 < a.total_seconds := lt_of_le_of_ne (le_trans h0 h1) (Ne.symm h)
      rw [va_share, if_neg h]
      exact ⟨div_nonneg h0 (le_of_lt hpos), (div_le_one hpos).mpr h1⟩

/-- Claim C8, witness: for a station with VA = 60, NVA = 20, MUDA = 10 the
share is 60/90 = 2/3, inside [0, 1]. -/
theorem C8_va_share_witness :
    va_share ⟨Cell.num 1, 60, 20, 10⟩ =
      (⟨Cell.num 1, 60, 20, 10⟩ : StationAggregate).va /
        (⟨Cell.num 1, 60, 20, 10⟩ : StationAggregate).total_seconds
    ∧ 0 ≤ va_share ⟨Cell.num 1, 60, 20, 10⟩
    ∧ va_share ⟨Cell.num 1, 60, 20, 10⟩ ≤ 1 := by
  refine ⟨(C8_va_share ⟨Cell.num 1, 60, 20, 10⟩).1 (by norm_num [StationAggregate.total_seconds]), ?_, ?_⟩
  · exact ((C8_va_share ⟨Cell.num 1, 60, 20, 10⟩).2.2 (by norm_num)
      (by norm_num [StationAggregate.total_seconds])).1
  · exact ((C8_va_share ⟨Cell.num 1, 60, 20, 10⟩).2.2 (by norm_num)
      (by norm_num [StationAggregate.total_seconds])).2

end Yamazumi
